import Mathlib

/-!
Shallow embedding of the blackjack rules engine in
`src/Blackjack/Blackjack.ts` (class `BlackjackGame`), together with
theorems checking the natural-language specification against it.

Modelling conventions:
* JS arrays become `List`; `deck.pop()` removes the LAST element, so the
  shoe is consumed from the tail (`getLast?` / `dropLast`).
* JS exceptions (`Bet amount must be positive.`, `Deck is empty.`) and the
  `TypeError` raised by dereferencing `undefined` become an
  `Except EngineError` result; operations that cannot throw stay pure.
* `Math.random`-based shuffling is nondeterministic, so the freshly
  shuffled deck produced by `createNewDeck` is passed in as an explicit
  parameter wherever the source calls it.
-/

namespace Blackjack

/-- `Card` from the source: rank 1(A), 2–10, 11(J), 12(Q), 13(K); suit 0–3. -/
structure Card where
  rank : Nat
  suit : Nat
deriving DecidableEq, Repr

/-- `GamePhase` enum. -/
inductive GamePhase
  | BETTING
  | PLAYER_TURN
  | DEALER_TURN
  | ROUND_OVER
deriving DecidableEq, Repr

/-- `HandStatus` enum. -/
inductive HandStatus
  | ACTIVE
  | STOOD
  | BUST
  | BLACKJACK
deriving DecidableEq, Repr

/-- `HandResult` enum. -/
inductive HandResult
  | PENDING
  | PLAYER_WINS
  | DEALER_WINS
  | PUSH
deriving DecidableEq, Repr

/-- `PlayerAction` enum. -/
inductive PlayerAction
  | HIT
  | STAND
  | DOUBLE_DOWN
  | SPLIT
  | INSURANCE
deriving DecidableEq, Repr

/-- `HandState` interface. -/
structure HandState where
  cards : List Card
  bet : Int
  status : HandStatus
  result : HandResult
deriving DecidableEq, Repr

/-- `GameOptions` interface. -/
structure GameOptions where
  numberOfDecks : Nat
  dealerHitsOnSoft17 : Bool
  blackjackPayout : Rat
deriving DecidableEq, Repr

/-- `HandValue`: result type of `BlackjackGame.getHandValue`. -/
structure HandValue where
  value : Nat
  isSoft : Bool
deriving DecidableEq, Repr

/-- The private fields of a `BlackjackGame` instance. -/
structure EngineState where
  deck : List Card
  playerHands : List HandState
  dealerHand : List Card
  activeHandIndex : Nat
  phase : GamePhase
  options : GameOptions
deriving DecidableEq, Repr

/-- Thrown errors of the engine: `startRound`'s "Bet amount must be
positive.", `dealCard`'s "Deck is empty.", and the JS `TypeError` raised
when `undefined` is dereferenced (e.g. `card.rank` on a missing card). -/
inductive EngineError
  | invalidBet
  | deckEmpty
  | typeError
deriving DecidableEq, Repr

/-- `GameState`: snapshot object returned by `getState`. -/
structure GameState where
  deckSize : Nat
  playerHands : List HandState
  dealerHand : List Card
  activeHandIndex : Nat
  phase : GamePhase
  dealerUpCardValue : Nat
  availableActions : List PlayerAction
deriving DecidableEq, Repr

/-- One step of `getHandValue`'s accumulation loop over the hand:
`rank > 10` adds 10; `rank === 1` adds 11 and counts an ace; otherwise
the rank itself is added.  The pair is `(sum, aceCount)`. -/
def tallyCard (acc : Nat × Nat) (card : Card) : Nat × Nat :=
  if card.rank > 10 then (acc.1 + 10, acc.2)
  else if card.rank = 1 then (acc.1 + 11, acc.2 + 1)
  else (acc.1 + card.rank, acc.2)

/-- The `while (sum > 21 && aceCount > 0) { sum -= 10; aceCount--; }`
demotion loop, by recursion on `aceCount` (which strictly decreases). -/
def demoteAces : Nat → Nat → Nat × Nat
  | sum, 0 => (sum, 0)
  | sum, aceCount + 1 =>
      if sum > 21 then demoteAces (sum - 10) aceCount
      else (sum, aceCount + 1)

/-- `BlackjackGame.getHandValue`.  After the demotion loop the source
computes `isSoft = aceCount > 0 && sum + 10 * aceCount <= 21`. -/
def getHandValue (hand : List Card) : HandValue :=
  if hand.length = 0 then { value := 0, isSoft := false }
  else
    let acc := hand.foldl tallyCard (0, 0)
    let demoted := demoteAces acc.1 acc.2
    { value := demoted.1
      isSoft := decide (demoted.2 > 0 ∧ demoted.1 + 10 * demoted.2 ≤ 21) }

/-- `dealCard`: throws "Deck is empty." on an empty deck, otherwise
`deck.pop()` removes and returns the last element. -/
def dealCard (deck : List Card) : Except EngineError (Card × List Card) :=
  match deck.getLast? with
  | none => .error .deckEmpty
  | some card => .ok (card, deck.dropLast)

/-- `canSplit`: exactly two cards whose values (`rank > 9 ? 10 : rank`)
are equal. -/
def canSplit (hand : HandState) : Bool :=
  match hand.cards with
  | [card1, card2] =>
      let value1 := if card1.rank > 9 then 10 else card1.rank
      let value2 := if card2.rank > 9 then 10 else card2.rank
      value1 == value2
  | _ => false

/-- `getAvailableActions`.  Returns `none` for the JS `TypeError` raised
when `phase == PLAYER_TURN` but `playerHands[activeHandIndex]` is
`undefined` (reading `.cards` of `undefined`); otherwise `some` of the
action list the source builds. -/
def getAvailableActions (s : EngineState) : Option (List PlayerAction) :=
  if s.phase ≠ GamePhase.PLAYER_TURN then some []
  else
    match s.playerHands[s.activeHandIndex]? with
    | none => none
    | some activeHand =>
      let isFirstTurn := activeHand.cards.length == 2
      some ([PlayerAction.HIT, PlayerAction.STAND]
        ++ (if isFirstTurn then [PlayerAction.DOUBLE_DOWN] else [])
        ++ (if isFirstTurn && canSplit activeHand then [PlayerAction.SPLIT]
            else []))

/-- The dealer draw loop of `resolveDealerTurn`:
`value < 17 || (value == 17 && isSoft && options.dealerHitsOnSoft17)`. -/
def dealerLoopCond (options : GameOptions) (hand : List Card) : Bool :=
  let v := getHandValue hand
  v.value < 17 || (v.value == 17 && v.isSoft && options.dealerHitsOnSoft17)

/-- The `while` loop of `resolveDealerTurn`, drawing one card per
iteration.  `fuel` is always called with `deck.length`; since each
`dealCard` removes one card, fuel cannot run out before the deck does,
so the `fuel = 0` fallback (also `deckEmpty`) is unreachable and the
function agrees with the unbounded source loop. -/
def dealerDrawLoop (options : GameOptions) :
    Nat → List Card → List Card → Except EngineError (List Card × List Card)
  | fuel, deck, hand =>
    if dealerLoopCond options hand then
      match dealCard deck with
      | .error e => .error e
      | .ok (card, deck1) =>
        match fuel with
        | 0 => .error .deckEmpty
        | fuel1 + 1 => dealerDrawLoop options fuel1 deck1 (hand ++ [card])
    else .ok (deck, hand)

/-- `settleHand`: the body of `evaluateResults`' per-hand loop, applied to
one hand given the dealer's final value and two-card-21 flag. -/
def settleHand (dealerValue : Nat) (dealerHasBlackjack : Bool)
    (hand : HandState) : HandState :=
  if hand.status = HandStatus.BUST then
    { hand with result := HandResult.DEALER_WINS }
  else if hand.status = HandStatus.BLACKJACK then
    { hand with result :=
        if dealerHasBlackjack then HandResult.PUSH else HandResult.PLAYER_WINS }
  else
    let playerValue := (getHandValue hand.cards).value
    { hand with result :=
        if dealerValue > 21 ∨ playerValue > dealerValue then
          HandResult.PLAYER_WINS
        else if playerValue < dealerValue then HandResult.DEALER_WINS
        else HandResult.PUSH }

/-- `evaluateResults`: settles every player hand against the dealer hand
and moves to `ROUND_OVER`. -/
def evaluateResults (s : EngineState) : EngineState :=
  let dealerValue := (getHandValue s.dealerHand).value
  let dealerHasBlackjack :=
    (dealerValue == 21) && (s.dealerHand.length == 2)
  { s with
      playerHands := s.playerHands.map (settleHand dealerValue dealerHasBlackjack)
      phase := GamePhase.ROUND_OVER }

/-- `resolveDealerTurn`: enter `DEALER_TURN`, run the draw loop, then
`evaluateResults`. -/
def resolveDealerTurn (s : EngineState) : Except EngineError EngineState :=
  match dealerDrawLoop s.options s.deck.length s.deck s.dealerHand with
  | .error e => .error e
  | .ok (deck1, dealerHand1) =>
      .ok (evaluateResults
        { s with phase := GamePhase.DEALER_TURN, deck := deck1,
                 dealerHand := dealerHand1 })

/-- `moveToNextHandOrResolve`: `findIndex` of the first hand strictly
after `activeHandIndex` that is still `ACTIVE`; if none, resolve the
dealer turn. -/
def findNextActiveIndex (hands : List HandState) (activeIdx : Nat) : Option Nat :=
  (List.range hands.length).find? fun i =>
    decide (activeIdx < i) &&
      (match hands[i]? with
       | some hand => hand.status == HandStatus.ACTIVE
       | none => false)

/-- `moveToNextHandOrResolve` itself. -/
def moveToNextHandOrResolve (s : EngineState) : Except EngineError EngineState :=
  match findNextActiveIndex s.playerHands s.activeHandIndex with
  | some i => .ok { s with activeHandIndex := i }
  | none => resolveDealerTurn s

/-- `resetGame`.  `createNewDeck`'s `Math.random` shuffle is modelled by
the explicit `newDeck` parameter (the shuffled deck it produces). -/
def resetGame (newDeck : List Card) (s : EngineState) : EngineState :=
  { s with deck := newDeck, playerHands := [], dealerHand := [],
           activeHandIndex := 0, phase := GamePhase.BETTING }

/-- `startRound`.  The reshuffle guard compares
`deck.length < numberOfDecks * 52 / 3` over JS numbers (real division);
on integers this is exactly `3 * deck.length < numberOfDecks * 52`.
`newDeck` models the shuffled deck `createNewDeck` would produce. -/
def startRound (newDeck : List Card) (betAmount : Int) (s : EngineState) :
    Except EngineError EngineState :=
  if s.phase ≠ GamePhase.BETTING ∧ s.phase ≠ GamePhase.ROUND_OVER then .ok s
  else if betAmount ≤ 0 then .error .invalidBet
  else do
    let deck0 := if 3 * s.deck.length < s.options.numberOfDecks * 52
                 then newDeck else s.deck
    let (p1, deck1) ← dealCard deck0
    let (p2, deck2) ← dealCard deck1
    let (d1, deck3) ← dealCard deck2
    let (d2, deck4) ← dealCard deck3
    let hand : HandState :=
      { cards := [p1, p2], bet := betAmount,
        status := HandStatus.ACTIVE, result := HandResult.PENDING }
    let s1 : EngineState :=
      { s with deck := deck4, playerHands := [hand], dealerHand := [d1, d2],
               activeHandIndex := 0, phase := GamePhase.PLAYER_TURN }
    if (getHandValue [p1, p2]).value = 21 then
      resolveDealerTurn
        { s1 with playerHands := [{ hand with status := HandStatus.BLACKJACK }] }
    else pure s1

/-- `hit`. -/
def hit (s : EngineState) : Except EngineError EngineState :=
  match getAvailableActions s with
  | none => .error .typeError
  | some actions =>
    if PlayerAction.HIT ∉ actions then .ok s
    else
      match s.playerHands[s.activeHandIndex]? with
      | none => .error .typeError
      | some activeHand => do
        let (card, deck1) ← dealCard s.deck
        let newCards := activeHand.cards ++ [card]
        if (getHandValue newCards).value > 21 then
          moveToNextHandOrResolve
            { s with deck := deck1,
                     playerHands := s.playerHands.set s.activeHandIndex
                       { activeHand with cards := newCards,
                                         status := HandStatus.BUST } }
        else
          pure { s with deck := deck1,
                        playerHands := s.playerHands.set s.activeHandIndex
                          { activeHand with cards := newCards } }

/-- `stand`. -/
def stand (s : EngineState) : Except EngineError EngineState :=
  match getAvailableActions s with
  | none => .error .typeError
  | some actions =>
    if PlayerAction.STAND ∉ actions then .ok s
    else
      match s.playerHands[s.activeHandIndex]? with
      | none => .error .typeError
      | some activeHand =>
        moveToNextHandOrResolve
          { s with playerHands := s.playerHands.set s.activeHandIndex
                     { activeHand with status := HandStatus.STOOD } }

/-- `doubleDown`: double the bet, deal exactly one card, mark `BUST` or
`STOOD`, advance the turn. -/
def doubleDown (s : EngineState) : Except EngineError EngineState :=
  match getAvailableActions s with
  | none => .error .typeError
  | some actions =>
    if PlayerAction.DOUBLE_DOWN ∉ actions then .ok s
    else
      match s.playerHands[s.activeHandIndex]? with
      | none => .error .typeError
      | some activeHand => do
        let (card, deck1) ← dealCard s.deck
        let newCards := activeHand.cards ++ [card]
        let newStatus :=
          if (getHandValue newCards).value > 21 then HandStatus.BUST
          else HandStatus.STOOD
        moveToNextHandOrResolve
          { s with deck := deck1,
                   playerHands := s.playerHands.set s.activeHandIndex
                     { activeHand with cards := newCards, bet := activeHand.bet * 2,
                                       status := newStatus } }

/-- `split`: pop the active hand's last card into a new hand with the same
bet, deal one card to each (active hand first), splice the new hand in at
`activeHandIndex + 1`, and mark the active hand `STOOD` (not `BLACKJACK`)
if its two cards now total 21.  `activeHandIndex` is not changed. -/
def split (s : EngineState) : Except EngineError EngineState :=
  match getAvailableActions s with
  | none => .error .typeError
  | some actions =>
    if PlayerAction.SPLIT ∉ actions then .ok s
    else
      match s.playerHands[s.activeHandIndex]? with
      | none => .error .typeError
      | some activeHand =>
        match activeHand.cards.getLast? with
        | none => .error .typeError
        | some popped => do
          let (c1, deck1) ← dealCard s.deck
          let (c2, deck2) ← dealCard deck1
          let origCards := activeHand.cards.dropLast ++ [c1]
          let newHand : HandState :=
            { cards := [popped, c2], bet := activeHand.bet,
              status := HandStatus.ACTIVE, result := HandResult.PENDING }
          let origHand : HandState :=
            if (getHandValue origCards).value = 21 then
              { activeHand with cards := origCards, status := HandStatus.STOOD }
            else { activeHand with cards := origCards }
          pure { s with deck := deck2,
                        playerHands :=
                          (s.playerHands.set s.activeHandIndex origHand).insertIdx
                            (s.activeHandIndex + 1) newHand }

/-- `getState`.  Returns the JS `TypeError` when `dealerHand` is empty:
the source always evaluates
`BlackjackGame.getHandValue([this.dealerHand[0]])`, which dereferences
`undefined.rank` when there is no dealer card.  It also propagates the
`TypeError` of `getAvailableActions` on a malformed active index. -/
def getState (s : EngineState) : Except EngineError GameState :=
  match s.dealerHand.head? with
  | none => .error .typeError
  | some upCard =>
    match getAvailableActions s with
    | none => .error .typeError
    | some actions =>
      .ok { deckSize := s.deck.length
            playerHands := s.playerHands
            dealerHand :=
              if s.phase = GamePhase.PLAYER_TURN then [upCard] else s.dealerHand
            activeHandIndex := s.activeHandIndex
            phase := s.phase
            dealerUpCardValue := (getHandValue [upCard]).value
            availableActions := actions }

/-! ### Sample states used by concrete theorems -/

/-- The constructor's default options (`numberOfDecks: 4`,
`dealerHitsOnSoft17: true`, `blackjackPayout: 1.5`). -/
def defaultOptions : GameOptions :=
  { numberOfDecks := 4, dealerHitsOnSoft17 := true, blackjackPayout := 3 / 2 }

/-- A mid-round state: the player stands on 10+9, the dealer shows
A♣ 6♣ (a soft seventeen), three fives remain in the shoe, and
`dealerHitsOnSoft17` is enabled. -/
def sampleSoft17State : EngineState :=
  { deck := [⟨5, 0⟩, ⟨5, 1⟩, ⟨5, 2⟩]
    playerHands := [{ cards := [⟨10, 0⟩, ⟨9, 0⟩], bet := 10,
                      status := HandStatus.STOOD, result := HandResult.PENDING }]
    dealerHand := [⟨1, 0⟩, ⟨6, 0⟩]
    activeHandIndex := 0
    phase := GamePhase.PLAYER_TURN
    options := { numberOfDecks := 1, dealerHitsOnSoft17 := true,
                 blackjackPayout := 3 / 2 } }

/-- A player-turn state whose active hand is the split-eligible pair
10♣ K♣ (both count 10). -/
def splitEligibleState : EngineState :=
  { deck := [⟨2, 0⟩, ⟨3, 0⟩, ⟨4, 0⟩, ⟨5, 0⟩]
    playerHands := [{ cards := [⟨10, 0⟩, ⟨13, 0⟩], bet := 25,
                      status := HandStatus.ACTIVE, result := HandResult.PENDING }]
    dealerHand := [⟨7, 0⟩, ⟨8, 0⟩]
    activeHandIndex := 0
    phase := GamePhase.PLAYER_TURN
    options := defaultOptions }

/-! ### Helper lemmas -/

/-- The split-value mapping `rank > 9 ? 10 : rank` is `min rank 10`. -/
lemma ite_gt_nine_eq_min (r : Nat) : (if r > 9 then 10 else r) = min r 10 := by
  split <;> omega

/-- `canSplit` succeeds exactly on two-card hands whose ranks agree under
`min · 10`. -/
lemma canSplit_iff (hand : HandState) :
    canSplit hand = true ↔
      ∃ c1 c2, hand.cards = [c1, c2] ∧ min c1.rank 10 = min c2.rank 10 := by
  unfold canSplit
  match h : hand.cards with
  | [] => simp
  | [c] => simp
  | c1 :: c2 :: c3 :: rest => simp
  | [c1, c2] =>
    simp only [beq_iff_eq, ite_gt_nine_eq_min]
    constructor
    · intro he
      exact ⟨c1, c2, rfl, he⟩
    · rintro ⟨d1, d2, he, hm⟩
      cases he
      exact hm

/-- A non-empty deck always deals its last card. -/
lemma dealCard_of_ne_nil (deck : List Card) (h : deck ≠ []) :
    ∃ c, dealCard deck = .ok (c, deck.dropLast) := by
  unfold dealCard
  match hl : deck.getLast? with
  | some c => exact ⟨c, rfl⟩
  | none => exact absurd (List.getLast?_eq_none_iff.mp hl) h

/-- Outside `PLAYER_TURN` the action list is empty. -/
lemma getAvailableActions_of_not_player_turn (s : EngineState)
    (h : s.phase ≠ GamePhase.PLAYER_TURN) : getAvailableActions s = some [] := by
  unfold getAvailableActions
  rw [if_pos h]

/-- In `PLAYER_TURN` with no hand at `activeHandIndex`, the action
computation dereferences `undefined` (modelled as `none`). -/
lemma getAvailableActions_of_no_active_hand (s : EngineState)
    (hp : s.phase = GamePhase.PLAYER_TURN)
    (hget : s.playerHands[s.activeHandIndex]? = none) :
    getAvailableActions s = none := by
  unfold getAvailableActions
  rw [if_neg (by simp [hp]), hget]

/-- Unfolding `getAvailableActions` in `PLAYER_TURN` with a present active
hand. -/
lemma getAvailableActions_player_turn (s : EngineState) (hand : HandState)
    (hp : s.phase = GamePhase.PLAYER_TURN)
    (hget : s.playerHands[s.activeHandIndex]? = some hand) :
    getAvailableActions s =
      some ([PlayerAction.HIT, PlayerAction.STAND]
        ++ (if hand.cards.length == 2 then [PlayerAction.DOUBLE_DOWN] else [])
        ++ (if hand.cards.length == 2 && canSplit hand then [PlayerAction.SPLIT]
            else [])) := by
  unfold getAvailableActions
  rw [if_neg (by simp [hp]), hget]

/-! ### Claim theorems -/

/-- C1: evaluating the static hand-value function at the spec's own
examples.  The totals follow the §4.1 algorithm, but `isSoft` comes out
`false` both for A+K and for A+A, because after the demotion loop the
source tests `aceCount > 0 && sum + 10 * aceCount <= 21` even though the
undemoted aces are already counted at 11 inside `sum`; a lone ace is the
only hand the test accepts. -/
theorem getHandValue_isSoft_on_natural_and_two_aces :
    getHandValue [⟨1, 0⟩, ⟨13, 0⟩] = { value := 21, isSoft := false } ∧
    getHandValue [⟨1, 0⟩, ⟨1, 1⟩] = { value := 12, isSoft := false } ∧
    getHandValue [⟨1, 0⟩] = { value := 11, isSoft := true } := by
  refine ⟨rfl, rfl, rfl⟩

/-- C2: with dealer hand A♣ 6♣ — a soft seventeen — and
`dealerHitsOnSoft17 := true`, `resolveDealerTurn` draws no card at all
(`getHandValue` reports `isSoft = false` for that hand, so the loop guard
fails at once) and the round goes straight to `ROUND_OVER` with the shoe
untouched. -/
theorem resolveDealerTurn_soft17_stands :
    (resolveDealerTurn sampleSoft17State).map
        (fun s => (s.dealerHand, s.phase, s.deck.length)) =
      .ok ([⟨1, 0⟩, ⟨6, 0⟩], GamePhase.ROUND_OVER, 3) := by
  rfl

/-- C3: `resetGame` does leave `phase = BETTING`, `playerHands = []` and
`dealerHand = []`, but the immediately following `getState` throws: it
always evaluates `getHandValue([dealerHand[0]])`, and with no dealer card
`dealerHand[0]` is `undefined`, whose `.rank` access is a `TypeError`. -/
theorem resetGame_then_getState (s : EngineState) (newDeck : List Card) :
    (resetGame newDeck s).phase = GamePhase.BETTING ∧
    (resetGame newDeck s).playerHands = [] ∧
    (resetGame newDeck s).dealerHand = [] ∧
    getState (resetGame newDeck s) = .error .typeError :=
  ⟨rfl, rfl, rfl, rfl⟩

/-- C5: whenever the requested action is absent from the computed
legal-action list, each of `hit`, `stand`, `doubleDown` and `split`
returns the state unchanged without raising an error. -/
theorem illegal_action_is_noop (s : EngineState) (actions : List PlayerAction)
    (h : getAvailableActions s = some actions) :
    (PlayerAction.HIT ∉ actions → hit s = .ok s) ∧
    (PlayerAction.STAND ∉ actions → stand s = .ok s) ∧
    (PlayerAction.DOUBLE_DOWN ∉ actions → doubleDown s = .ok s) ∧
    (PlayerAction.SPLIT ∉ actions → split s = .ok s) := by
  refine ⟨fun hn => ?_, fun hn => ?_, fun hn => ?_, fun hn => ?_⟩
  · unfold hit
    rw [h]
    exact if_pos hn
  · unfold stand
    rw [h]
    exact if_pos hn
  · unfold doubleDown
    rw [h]
    exact if_pos hn
  · unfold split
    rw [h]
    exact if_pos hn

/-- C5 witness: `SPLIT` is not legal on the 10+9 hand of
`sampleSoft17State`, and `split` leaves that state untouched. -/
theorem illegal_action_noop_witness :
    split sampleSoft17State = .ok sampleSoft17State :=
  (illegal_action_is_noop sampleSoft17State
      [PlayerAction.HIT, PlayerAction.STAND, PlayerAction.DOUBLE_DOWN]
      rfl).2.2.2 (by decide)

/-- C6 counterexample: in `PLAYER_TURN` the phase guard returns before the
bet check, so `startRound` with bet `0` raises nothing and changes
nothing, contradicting "for every state ... raises the InvalidArgument
error". -/
theorem startRound_nonpositive_bet_not_error :
    startRound [] 0 sampleSoft17State = .ok sampleSoft17State ∧
    startRound [] 0 sampleSoft17State ≠ .error .invalidBet := by
  refine ⟨rfl, fun h => ?_⟩
  rw [show startRound [] 0 sampleSoft17State = .ok sampleSoft17State from rfl] at h
  exact Except.noConfusion h

/-- C6 amended: in `BETTING` or `ROUND_OVER` a non-positive bet makes
`startRound` fail with the invalid-bet error (the round is not started:
an error return carries no new state); in any other phase `startRound` is
a silent no-op, so it only ever begins a round from `BETTING` or
`ROUND_OVER`. -/
theorem startRound_guard_order (s : EngineState) (newDeck : List Card)
    (bet : Int) :
    ((s.phase = GamePhase.BETTING ∨ s.phase = GamePhase.ROUND_OVER) →
      bet ≤ 0 → startRound newDeck bet s = .error .invalidBet) ∧
    (s.phase ≠ GamePhase.BETTING → s.phase ≠ GamePhase.ROUND_OVER →
      startRound newDeck bet s = .ok s) := by
  constructor
  · intro hp hb
    unfold startRound
    rw [if_neg (by tauto), if_pos hb]
  · intro h1 h2
    unfold startRound
    rw [if_pos ⟨h1, h2⟩]

/-- C6 witness: a zero bet in the `BETTING` state produced by `resetGame`
fails with the invalid-bet error. -/
theorem startRound_guard_order_witness :
    startRound [] 0 (resetGame [] sampleSoft17State) = .error .invalidBet :=
  (startRound_guard_order (resetGame [] sampleSoft17State) [] 0).1
    (Or.inl rfl) (by decide)

/-- C8: settlement assigns each hand's result from its own status and the
dealer's final hand alone, leaving its cards, bet and status untouched:
`BUST` loses even if the dealer busts; `BLACKJACK` pushes exactly against
a dealer two-card 21 and wins otherwise; every other hand wins when the
dealer busts or is outscored, loses when outscoring the player, and
pushes on equality — and the phase becomes `ROUND_OVER`. -/
theorem evaluateResults_settles_hands (s : EngineState) (i : Nat)
    (hand : HandState) (h : s.playerHands[i]? = some hand) :
    (evaluateResults s).phase = GamePhase.ROUND_OVER ∧
    ∃ hand1, (evaluateResults s).playerHands[i]? = some hand1 ∧
      hand1.cards = hand.cards ∧ hand1.bet = hand.bet ∧
      hand1.status = hand.status ∧
      (hand.status = HandStatus.BUST → hand1.result = HandResult.DEALER_WINS) ∧
      (hand.status = HandStatus.BLACKJACK →
        hand1.result =
          if (getHandValue s.dealerHand).value = 21 ∧ s.dealerHand.length = 2
          then HandResult.PUSH else HandResult.PLAYER_WINS) ∧
      (hand.status ≠ HandStatus.BUST → hand.status ≠ HandStatus.BLACKJACK →
        hand1.result =
          if 21 < (getHandValue s.dealerHand).value ∨
             (getHandValue s.dealerHand).value < (getHandValue hand.cards).value
          then HandResult.PLAYER_WINS
          else if (getHandValue hand.cards).value < (getHandValue s.dealerHand).value
          then HandResult.DEALER_WINS
          else HandResult.PUSH) := by
  refine ⟨rfl, settleHand (getHandValue s.dealerHand).value
      (((getHandValue s.dealerHand).value == 21) && (s.dealerHand.length == 2))
      hand, ?_, ?_, ?_, ?_, ?_, ?_, ?_⟩
  · show (s.playerHands.map _)[i]? = _
    rw [List.getElem?_map, h]
    rfl
  · unfold settleHand
    split_ifs <;> rfl
  · unfold settleHand
    split_ifs <;> rfl
  · unfold settleHand
    split_ifs <;> rfl
  · intro hb
    simp [settleHand, hb]
  · intro hb
    simp [settleHand, hb, Bool.and_eq_true, beq_iff_eq]
  · intro hb1 hb2
    simp only [settleHand, if_neg hb1, if_neg hb2, gt_iff_lt]

/-- C8 witness: settling `sampleSoft17State` (player 19 beats dealer 17)
reaches `ROUND_OVER` with the hand's result assigned as specified. -/
theorem evaluateResults_settles_hands_witness :
    (evaluateResults sampleSoft17State).phase = GamePhase.ROUND_OVER :=
  (evaluateResults_settles_hands sampleSoft17State 0
      { cards := [⟨10, 0⟩, ⟨9, 0⟩], bet := 10,
        status := HandStatus.STOOD, result := HandResult.PENDING } rfl).1

/-- C9: the legal-action set is empty outside `PLAYER_TURN`; in
`PLAYER_TURN` it always offers `HIT` and `STAND`, offers `DOUBLE_DOWN`
exactly on a two-card hand, offers `SPLIT` exactly on a two-card hand
whose ranks agree under `min rank 10` (so 10 pairs with J/Q/K but 9 does
not pair with 10), and never offers `INSURANCE`. -/
theorem getAvailableActions_spec (s : EngineState)
    (actions : List PlayerAction) (hand : HandState) :
    (s.phase ≠ GamePhase.PLAYER_TURN → getAvailableActions s = some []) ∧
    (s.phase = GamePhase.PLAYER_TURN →
      getAvailableActions s = some actions →
      s.playerHands[s.activeHandIndex]? = some hand →
      PlayerAction.HIT ∈ actions ∧ PlayerAction.STAND ∈ actions ∧
      (PlayerAction.DOUBLE_DOWN ∈ actions ↔ hand.cards.length = 2) ∧
      (PlayerAction.SPLIT ∈ actions ↔
        ∃ c1 c2, hand.cards = [c1, c2] ∧ min c1.rank 10 = min c2.rank 10) ∧
      PlayerAction.INSURANCE ∉ actions) := by
  constructor
  · exact getAvailableActions_of_not_player_turn s
  · intro hp h hget
    rw [getAvailableActions_player_turn s hand hp hget] at h
    injection h with h
    subst h
    have hsplit := canSplit_iff hand
    by_cases h2 : hand.cards.length = 2
    · by_cases hc : canSplit hand = true
      · refine ⟨by simp, by simp, by simp [h2], ?_, by simp [h2, hc]⟩
        simp only [h2, hc, beq_self_eq_true, Bool.and_self, if_pos]
        simp only [← hsplit, hc]
        simp
      · refine ⟨by simp, by simp, by simp [h2], ?_, by simp [h2, hc]⟩
        simp only [h2, hc, beq_self_eq_true, Bool.and_false, Bool.and_true]
        rw [iff_iff_implies_and_implies]
        refine ⟨fun hm => absurd (hsplit.mpr ?_) hc, fun he => absurd (hsplit.mpr he) hc⟩
        · exact absurd hm (by simp)
    · have hs : ¬ ∃ c1 c2, hand.cards = [c1, c2] ∧ min c1.rank 10 = min c2.rank 10 := by
        rintro ⟨c1, c2, he, -⟩
        exact h2 (by rw [he]; rfl)
      refine ⟨by simp, by simp, by simp [h2], by simp [h2, hs], by simp [h2]⟩

/-- C9 witness: in `splitEligibleState` the active hand is the pair
10♣ K♣, both counting 10, so `SPLIT` is among the computed actions. -/
theorem getAvailableActions_spec_witness :
    PlayerAction.SPLIT ∈ [PlayerAction.HIT, PlayerAction.STAND,
      PlayerAction.DOUBLE_DOWN, PlayerAction.SPLIT] :=
  ((getAvailableActions_spec splitEligibleState
      [PlayerAction.HIT, PlayerAction.STAND, PlayerAction.DOUBLE_DOWN,
        PlayerAction.SPLIT]
      { cards := [⟨10, 0⟩, ⟨13, 0⟩], bet := 25,
        status := HandStatus.ACTIVE, result := HandResult.PENDING }).2
    rfl rfl rfl).2.2.2.1.mpr ⟨⟨10, 0⟩, ⟨13, 0⟩, rfl, rfl⟩

/-- `getElem?` form of `List.getElem_insertIdx_of_lt`. -/
lemma getElem?_insertIdx_lt {α : Type _} (l : List α) (x : α) (n k : Nat)
    (hn : k < n) (hk : k < l.length) : (l.insertIdx n x)[k]? = l[k]? := by
  rw [List.getElem?_eq_getElem
      (Nat.lt_of_lt_of_le hk (List.length_le_length_insertIdx l x n)),
    List.getElem?_eq_getElem hk, List.getElem_insertIdx_of_lt l x n k hn hk]

/-- `getElem?` form of `List.getElem_insertIdx_self`. -/
lemma getElem?_insertIdx_at {α : Type _} (l : List α) (x : α) (n : Nat)
    (hn : n ≤ l.length) : (l.insertIdx n x)[n]? = some x := by
  rw [List.getElem?_eq_getElem
      (by rw [List.length_insertIdx _ _ hn]; omega),
    List.getElem_insertIdx_self l x n hn]

/-- `getElem?` form of `List.getElem_insertIdx_add_succ`. -/
lemma getElem?_insertIdx_shift {α : Type _} (l : List α) (x : α) (n k : Nat)
    (hk : n + k < l.length) : (l.insertIdx n x)[n + k + 1]? = l[n + k]? := by
  rw [List.getElem?_eq_getElem
      (by rw [List.length_insertIdx _ _ (by omega)]; omega),
    List.getElem?_eq_getElem hk, List.getElem_insertIdx_add_succ l x n k hk]

/-- A legal `SPLIT` forces `PLAYER_TURN`, a present active hand with
exactly two cards, and `canSplit`. -/
lemma split_legal_elim (s : EngineState) (actions : List PlayerAction)
    (h1 : getAvailableActions s = some actions)
    (h2 : PlayerAction.SPLIT ∈ actions) :
    s.phase = GamePhase.PLAYER_TURN ∧
    ∃ hand, s.playerHands[s.activeHandIndex]? = some hand ∧
      hand.cards.length = 2 ∧ canSplit hand = true := by
  by_cases hp : s.phase = GamePhase.PLAYER_TURN
  · refine ⟨hp, ?_⟩
    match hget : s.playerHands[s.activeHandIndex]? with
    | none =>
      rw [getAvailableActions_of_no_active_hand s hp hget] at h1
      exact absurd h1 (by simp)
    | some hand =>
      rw [getAvailableActions_player_turn s hand hp hget] at h1
      injection h1 with h1
      subst h1
      refine ⟨hand, rfl, ?_⟩
      match hl : (hand.cards.length == 2), hc : canSplit hand with
      | true, true => exact ⟨by simpa using hl, rfl⟩
      | true, false => rw [hl, hc] at h2; simp at h2
      | false, true => rw [hl] at h2; simp at h2
      | false, false => rw [hl] at h2; simp at h2
  · rw [getAvailableActions_of_not_player_turn s hp] at h1
    injection h1 with h1
    subst h1
    simp at h2

/-- `Except` bind on a success, by definitional unfolding. -/
lemma exceptBind_ok {ε α β : Type _} (a : α) (f : α → Except ε β) :
    (Except.ok a : Except ε α) >>= f = f a := rfl

/-- `pure` for `Except` is `Except.ok`. -/
lemma exceptPure_eq_ok {ε α : Type _} (a : α) :
    (pure a : Except ε α) = Except.ok a := rfl

/-- C7: a legal `split` (with at least two cards left in the shoe)
produces exactly one more player hand; the reshaped original hand and the
new hand both hold two cards; the new hand carries the same bet and is
`ACTIVE`, sitting immediately after the original position (hands before
the active one stay put, later ones shift by one); `activeHandIndex` and
the phase do not move; and if the original hand's two cards now total 21
its status becomes `STOOD`, not `BLACKJACK`. -/
theorem split_inserts_new_hand (s : EngineState) (actions : List PlayerAction)
    (h1 : getAvailableActions s = some actions)
    (h2 : PlayerAction.SPLIT ∈ actions) (h3 : 2 ≤ s.deck.length) :
    ∃ s1 origHand newHand,
      split s = .ok s1 ∧
      s1.playerHands.length = s.playerHands.length + 1 ∧
      s1.playerHands[s.activeHandIndex]? = some origHand ∧
      s1.playerHands[s.activeHandIndex + 1]? = some newHand ∧
      origHand.cards.length = 2 ∧ newHand.cards.length = 2 ∧
      (∃ hand, s.playerHands[s.activeHandIndex]? = some hand ∧
        newHand.bet = hand.bet) ∧
      newHand.status = HandStatus.ACTIVE ∧
      s1.activeHandIndex = s.activeHandIndex ∧
      s1.phase = s.phase ∧
      (∀ j, j < s.activeHandIndex →
        s1.playerHands[j]? = s.playerHands[j]?) ∧
      (∀ j, s.activeHandIndex < j →
        s1.playerHands[j + 1]? = s.playerHands[j]?) ∧
      ((getHandValue origHand.cards).value = 21 →
        origHand.status = HandStatus.STOOD ∧
        origHand.status ≠ HandStatus.BLACKJACK) := by
  obtain ⟨hp, hand, hget, hlen2, hcs⟩ := split_legal_elim s actions h1 h2
  obtain ⟨a, b, hab⟩ := List.length_eq_two.mp hlen2
  have hd1ne : s.deck ≠ [] := by
    intro hh
    rw [hh] at h3
    simp at h3
  obtain ⟨c1, hdeal1⟩ := dealCard_of_ne_nil s.deck hd1ne
  have hdlen : s.deck.dropLast.length = s.deck.length - 1 :=
    List.length_dropLast s.deck
  have hd2ne : s.deck.dropLast ≠ [] := by
    intro hh
    rw [hh] at hdlen
    simp at hdlen
    omega
  obtain ⟨c2, hdeal2⟩ := dealCard_of_ne_nil _ hd2ne
  have hi : s.activeHandIndex < s.playerHands.length :=
    (List.getElem?_eq_some_iff.mp hget).1
  refine ⟨{ s with
            deck := s.deck.dropLast.dropLast
            playerHands :=
              (s.playerHands.set s.activeHandIndex
                { hand with
                  cards := [a, c1]
                  status := (if (getHandValue [a, c1]).value = 21
                             then HandStatus.STOOD else hand.status) }).insertIdx
                (s.activeHandIndex + 1)
                { cards := [b, c2]
                  bet := hand.bet
                  status := HandStatus.ACTIVE
                  result := HandResult.PENDING } },
        { hand with
          cards := [a, c1]
          status := (if (getHandValue [a, c1]).value = 21
                     then HandStatus.STOOD else hand.status) },
        { cards := [b, c2]
          bet := hand.bet
          status := HandStatus.ACTIVE
          result := HandResult.PENDING },
        ?_, ?_, ?_, ?_, rfl, rfl, ⟨hand, hget, rfl⟩, rfl, rfl, rfl, ?_, ?_, ?_⟩
  · simp only [split, h1, if_neg (not_not_intro h2), hget, hab,
      List.getLast?_cons_cons, List.getLast?_singleton, hdeal1, exceptBind_ok,
      hdeal2, exceptPure_eq_ok, List.dropLast_cons₂, List.dropLast_single,
      List.nil_append, List.cons_append]
    congr 1
    split_ifs <;> rfl
  · rw [List.length_insertIdx _ _ (by rw [List.length_set]; omega),
      List.length_set]
  · rw [getElem?_insertIdx_lt _ _ _ _ (Nat.lt_succ_self _)
      (by rw [List.length_set]; exact hi)]
    exact List.getElem?_set_self (by simpa using hi)
  · exact getElem?_insertIdx_at _ _ _ (by rw [List.length_set]; omega)
  · intro j hj
    rw [getElem?_insertIdx_lt _ _ _ _ (by omega)
      (by rw [List.length_set]; omega)]
    exact List.getElem?_set_ne (by omega)
  · intro j hj
    by_cases hjl : j < s.playerHands.length
    · obtain ⟨k, rfl⟩ : ∃ k, j = s.activeHandIndex + 1 + k :=
        ⟨j - s.activeHandIndex - 1, by omega⟩
      rw [show s.activeHandIndex + 1 + k + 1 = s.activeHandIndex + 1 + k + 1
          from rfl,
        getElem?_insertIdx_shift _ _ (s.activeHandIndex + 1) k
          (by rw [List.length_set]; omega)]
      exact List.getElem?_set_ne (by omega)
    · rw [List.getElem?_eq_none (l := s.playerHands) (by omega),
        List.getElem?_eq_none]
      rw [List.length_insertIdx _ _ (by rw [List.length_set]; omega),
        List.length_set]
      omega
  · intro h21
    constructor
    · exact if_pos h21
    · rw [if_pos h21]
      simp

/-- C7 witness: splitting the 10♣ K♣ pair of `splitEligibleState`
succeeds and yields two player hands. -/
theorem split_inserts_new_hand_witness :
    ∃ s1, split splitEligibleState = .ok s1 ∧ s1.playerHands.length = 2 := by
  obtain ⟨s1, o, n, hok, hlen, -⟩ :=
    split_inserts_new_hand splitEligibleState
      [PlayerAction.HIT, PlayerAction.STAND, PlayerAction.DOUBLE_DOWN,
        PlayerAction.SPLIT]
      rfl (by decide) (by decide)
  exact ⟨s1, hok, by simpa using hlen⟩

/-- Rewrite every player hand's status while keeping everything else:
used to state that the legal-action computation never reads statuses. -/
def withStatuses (s : EngineState) (f : HandState → HandStatus) : EngineState :=
  { s with playerHands := s.playerHands.map fun h => { h with status := f h } }

/-- If some hand strictly after `activeIdx` is `ACTIVE`, the
`findIndex` scan succeeds. -/
lemma findNextActiveIndex_isSome (hands : List HandState) (i j : Nat)
    (hij : i < j) (hand : HandState) (hget : hands[j]? = some hand)
    (hact : hand.status = HandStatus.ACTIVE) :
    ∃ k, findNextActiveIndex hands i = some k := by
  cases hfind : findNextActiveIndex hands i with
  | some k => exact ⟨k, rfl⟩
  | none =>
    exfalso
    unfold findNextActiveIndex at hfind
    rw [List.find?_eq_none] at hfind
    have hjlen : j < hands.length := (List.getElem?_eq_some_iff.mp hget).1
    exact hfind j (List.mem_range.mpr hjlen) (by simp [hget, hact, hij])

/-- `moveToNextHandOrResolve` on a successful scan just moves the index. -/
lemma moveToNext_of_found (s : EngineState) (k : Nat)
    (h : findNextActiveIndex s.playerHands s.activeHandIndex = some k) :
    moveToNextHandOrResolve s = .ok { s with activeHandIndex := k } := by
  unfold moveToNextHandOrResolve
  rw [h]

/-- A typical state right after splitting tens: the original hand drew an
ace, totals 21 and was marked `STOOD`, while the freshly created second
hand is `ACTIVE`; `activeHandIndex` still points at the `STOOD` hand. -/
def postSplitState : EngineState :=
  { deck := [⟨9, 1⟩, ⟨9, 2⟩]
    playerHands := [{ cards := [⟨10, 0⟩, ⟨1, 0⟩], bet := 25,
                      status := HandStatus.STOOD, result := HandResult.PENDING },
                    { cards := [⟨13, 0⟩, ⟨5, 0⟩], bet := 25,
                      status := HandStatus.ACTIVE, result := HandResult.PENDING }]
    dealerHand := [⟨7, 0⟩, ⟨8, 0⟩]
    activeHandIndex := 0
    phase := GamePhase.PLAYER_TURN
    options := defaultOptions }

/-- C10: the legal-action computation never reads hand statuses (changing
every status changes nothing), so in `PLAYER_TURN` any two-card active
hand — `STOOD` after a split-to-21 included — is still offered `HIT`,
`STAND` and `DOUBLE_DOWN`; and `hit` then deals a further card to that
hand (stated with another hand still `ACTIVE` later in the sequence, as
after a split, so the turn cannot leave the player). -/
theorem actions_ignore_status (s : EngineState) (hand : HandState)
    (hp : s.phase = GamePhase.PLAYER_TURN)
    (hget : s.playerHands[s.activeHandIndex]? = some hand)
    (h2 : hand.cards.length = 2) :
    (∀ t f, getAvailableActions (withStatuses t f) = getAvailableActions t) ∧
    (∀ actions, getAvailableActions s = some actions →
      PlayerAction.HIT ∈ actions ∧ PlayerAction.STAND ∈ actions ∧
      PlayerAction.DOUBLE_DOWN ∈ actions) ∧
    (s.deck ≠ [] →
      (∃ j laterHand, s.activeHandIndex < j ∧
        s.playerHands[j]? = some laterHand ∧
        laterHand.status = HandStatus.ACTIVE) →
      ∃ s1 card hand1, hit s = .ok s1 ∧
        s1.playerHands[s.activeHandIndex]? = some hand1 ∧
        hand1.cards = hand.cards ++ [card]) := by
  refine ⟨?_, ?_, ?_⟩
  · intro t f
    unfold getAvailableActions withStatuses
    by_cases hp' : t.phase = GamePhase.PLAYER_TURN
    · rw [if_neg (by simp [hp']), if_neg (by simp [hp']),
        List.getElem?_map]
      cases hg : t.playerHands[t.activeHandIndex]? with
      | none => rfl
      | some h0 => rfl
    · rw [if_pos hp', if_pos hp']
  · intro actions h
    rw [getAvailableActions_player_turn s hand hp hget] at h
    injection h with h
    subst h
    have h2b : (hand.cards.length == 2) = true := by simpa using h2
    exact ⟨by simp, by simp, by simp [h2b]⟩
  · intro hdeck hex
    obtain ⟨c, hdeal⟩ := dealCard_of_ne_nil s.deck hdeck
    have hActs := getAvailableActions_player_turn s hand hp hget
    have hi : s.activeHandIndex < s.playerHands.length :=
      (List.getElem?_eq_some_iff.mp hget).1
    by_cases hbust : (getHandValue (hand.cards ++ [c])).value > 21
    · obtain ⟨j, laterHand, hij, hjget, hjact⟩ := hex
      have hjset :
          (s.playerHands.set s.activeHandIndex
            { hand with cards := hand.cards ++ [c],
                        status := HandStatus.BUST })[j]? = some laterHand := by
        rw [List.getElem?_set_ne (by omega)]
        exact hjget
      obtain ⟨k, hk⟩ :=
        findNextActiveIndex_isSome _ s.activeHandIndex j hij laterHand hjset
          hjact
      have hrun : hit s =
          moveToNextHandOrResolve
            { s with deck := s.deck.dropLast,
                     playerHands := s.playerHands.set s.activeHandIndex
                       { hand with cards := hand.cards ++ [c],
                                   status := HandStatus.BUST } } := by
        simp only [hit, hActs, hget, hdeal, exceptBind_ok]
        rw [if_neg (not_not_intro (by simp)), if_pos hbust]
      refine ⟨{ s with
                deck := s.deck.dropLast
                playerHands := s.playerHands.set s.activeHandIndex
                  { hand with
                    cards := hand.cards ++ [c]
                    status := HandStatus.BUST }
                activeHandIndex := k },
              c,
              { hand with
                cards := hand.cards ++ [c]
                status := HandStatus.BUST }, ?_, ?_, rfl⟩
      · rw [hrun]
        exact moveToNext_of_found _ k hk
      · exact List.getElem?_set_self hi
    · have hrun : hit s = .ok
          { s with deck := s.deck.dropLast,
                   playerHands := s.playerHands.set s.activeHandIndex
                     { hand with cards := hand.cards ++ [c] } } := by
        simp only [hit, hActs, hget, hdeal, exceptBind_ok]
        rw [if_neg (not_not_intro (by simp)), if_neg hbust]
        rfl
      refine ⟨_, c, { hand with cards := hand.cards ++ [c] }, hrun, ?_, rfl⟩
      exact List.getElem?_set_self (by simpa using hi)

/-- C10 witness: in `postSplitState` the active hand is the two-card
`STOOD` 21 built by a split, yet `hit` still deals it a further card. -/
theorem actions_ignore_status_witness :
    ∃ s1 card hand1, hit postSplitState = .ok s1 ∧
      s1.playerHands[postSplitState.activeHandIndex]? = some hand1 ∧
      hand1.cards = [(⟨10, 0⟩ : Card), ⟨1, 0⟩] ++ [card] :=
  (actions_ignore_status postSplitState
      { cards := [⟨10, 0⟩, ⟨1, 0⟩], bet := 25, status := HandStatus.STOOD,
        result := HandResult.PENDING }
      rfl rfl rfl).2.2 (by decide)
    ⟨1, { cards := [⟨13, 0⟩, ⟨5, 0⟩], bet := 25, status := HandStatus.ACTIVE,
          result := HandResult.PENDING }, by decide, rfl, rfl⟩

end Blackjack
